import Mathlib

/-!
Shallow embedding of the easyweb repository (three JS source files):
an authentication helper (auth.js), a hosted-API button manager
(the unnamed ButtonManager file using the SheetDB API, called part_001 below),
and a static-JSON button manager (script.js).

Browser effects are made explicit:
* localStorage contents are passed in as values (`StoredAuth`, `CacheState`);
* network fetches are passed in as `FetchOutcome` values describing what the
  remote source would deliver on this call;
* DOM writes and remote requests are recorded as explicit event traces
  (`LEvent`, `UBEvent`) and the DOM itself is a list of elements (`Elem`).
JavaScript truthiness of the string-valued fields involved is modelled by
comparison with the empty string (undefined and "" are both falsy and are
interchangeable in every use the code makes of these fields).
-/

/-! ## auth.js -/

/-- A JSON scalar as stored inside the session marker; `Option JsonVal` with
`none` models an absent (undefined) property. -/
inductive JsonVal where
  | null : JsonVal
  | jbool : Bool → JsonVal
  | jnum : Int → JsonVal
  | jstr : String → JsonVal
deriving DecidableEq

/-- JavaScript truthiness of a possibly-absent JSON scalar. -/
def truthy : Option JsonVal → Bool
  | none => false
  | some JsonVal.null => false
  | some (JsonVal.jbool b) => b
  | some (JsonVal.jnum n) => decide (n ≠ 0)
  | some (JsonVal.jstr s) => decide (s ≠ "")

/-- The content of `localStorage.getItem('auth')`:
absent, present but not valid JSON (`JSON.parse` throws), or parsed.
`expires` is the result of `new Date(expires)`: `some ts` for a valid date
with timestamp `ts`, `none` for an invalid date (comparisons with an invalid
date are false in JS). -/
inductive StoredAuth where
  | absent : StoredAuth
  | malformed : StoredAuth
  | parsed : Option JsonVal → Option JsonVal → Option Int → StoredAuth
deriving DecidableEq

/-- auth.js `isAuthenticated()`: absent marker → false; parse failure is
caught → false; otherwise `username && token && new Date(expires) > new Date()`
(the JS expression returns a falsy value when username/token are falsy;
we model the result by its truthiness, which is how every caller uses it). -/
def isAuthenticated (s : StoredAuth) (now : Int) : Bool :=
  match s with
  | StoredAuth.absent => false
  | StoredAuth.malformed => false
  | StoredAuth.parsed u t e =>
      truthy u && truthy t &&
        (match e with
         | none => false
         | some ts => decide (now < ts))

/-- auth.js `getCurrentUser()`: absent → null, parse failure caught → null,
otherwise the parsed marker. -/
def getCurrentUser (s : StoredAuth) : Option (Option JsonVal × Option JsonVal × Option Int) :=
  match s with
  | StoredAuth.absent => none
  | StoredAuth.malformed => none
  | StoredAuth.parsed u t e => some (u, t, e)

/-- A credential record of `AUTH_CONFIG.users`. -/
structure User where
  username : String
  password : String
  role : String
deriving DecidableEq

/-- auth.js `AUTH_CONFIG.users`. -/
def AUTH_CONFIG_users : List User :=
  [{ username := "admin", password := "G9m#tX2!pV7q@Lz4", role := "admin" }]

/-- The admin password literal from auth.js, named for readability. -/
def ADMIN_PASSWORD : String := "G9m#tX2!pV7q@Lz4"

/-- The two shapes `authenticate` returns. -/
inductive AuthResult where
  | authenticated : String → String → AuthResult
  | unauthenticated : AuthResult
deriving DecidableEq

/-- auth.js `authenticate(username, password)`: `Array.prototype.find` over the
static list, exact match on both fields. -/
def authenticate (username password : String) : AuthResult :=
  match AUTH_CONFIG_users.find? (fun u => u.username == username && u.password == password) with
  | some u => AuthResult.authenticated u.username u.role
  | none => AuthResult.unauthenticated

/-! ## part_001 ButtonManager: data model -/

/-- One value of `this.buttons` in part_001's constructor; `description` and
`lastUpdated` are absent (`""`) in the defaults and may be set later. -/
structure ButtonData where
  text : String
  url : String
  column : String
  displayText : String
  description : String
  lastUpdated : String
deriving DecidableEq

/-- `this.buttons`, an object = ordered association list keyed by the logical
button names. -/
abbrev Buttons := List (String × ButtonData)

/-- part_001 constructor defaults for `this.buttons`. -/
def defaultButtons : Buttons :=
  [("primary",
    { text := "Get Started", url := "#", column := "btn1",
      displayText := "Get Started", description := "", lastUpdated := "" }),
   ("secondary",
    { text := "Learn More", url := "#", column := "btn2",
      displayText := "Learn More", description := "", lastUpdated := "" }),
   ("accent",
    { text := "Join Now", url := "#", column := "btn3",
      displayText := "Join Now", description := "", lastUpdated := "" })]

/-- A SheetDB row: an object keyed by column name with string cells. -/
abbrev Row := List (String × String)

/-- JS property read `row[col]`: `none` models `undefined`. -/
def lookupRow (row : Row) (col : String) : Option String :=
  match row with
  | [] => none
  | p :: rest => if p.1 == col then some p.2 else lookupRow rest col

/-- JS property read `this.buttons[name]`. -/
def lookupB (b : Buttons) (k : String) : Option ButtonData :=
  match b with
  | [] => none
  | p :: rest => if p.1 == k then some p.2 else lookupB rest k

/-- JS property write `this.buttons[name] = v` for a key already present
(every call site guards on presence). -/
def setB (b : Buttons) (k : String) (v : ButtonData) : Buttons :=
  b.map (fun p => if p.1 == k then (p.1, v) else p)

/-- The key list of the button map. -/
def keysOf (b : Buttons) : List String := b.map Prod.fst

/-- All three configured logical keys are present. -/
def hasAllKeys (b : Buttons) : Bool :=
  (lookupB b "primary").isSome && (lookupB b "secondary").isSome
    && (lookupB b "accent").isSome

/-! ## part_001 ButtonManager: loaders -/

/-- Outcome of one `fetch` + body-read against a remote source:
the fetch rejects, resolves non-ok, resolves ok but the body fails to parse,
or delivers parsed data. -/
inductive FetchOutcome (α : Type) where
  | netError : FetchOutcome α
  | httpError : FetchOutcome α
  | parseError : FetchOutcome α
  | ok : α → FetchOutcome α
deriving DecidableEq

/-- `localStorage.getItem('buttonData')`: absent, present but `JSON.parse`
throws, or parsed into a button map. -/
inductive CacheState where
  | absent : CacheState
  | malformed : CacheState
  | stored : Buttons → CacheState
deriving DecidableEq

/-- Observable effects of the loaders, in order of occurrence. -/
inductive LEvent where
  | fetchApi : LEvent
  | fetchStatic : LEvent
  | readCache : LEvent
  | writeCache : Buttons → LEvent
  | domSync : Buttons → LEvent
deriving DecidableEq

/-- The environment a load runs in: what the hosted SheetDB API would deliver,
what the static `config.json` source would deliver (as the snapshot it holds),
and the local cache content. -/
structure LoadEnv where
  api : FetchOutcome (List Row)
  staticFile : FetchOutcome Buttons
  cache : CacheState
deriving DecidableEq

/-- The per-row update loop of part_001 `loadButtonData`:
`if (row[columnName] !== undefined && row[columnName] !== '')` set the url. -/
def updateUrls (st : Buttons) (row : Row) : Buttons :=
  st.map (fun p =>
    match lookupRow row p.2.column with
    | some v => if v == "" then p else (p.1, { p.2 with url := v })
    | none => p)

/-- The per-row update loop of part_001 `loadConfig`:
only `row[button.column] !== undefined` is checked (empty cells are copied). -/
def updateUrlsLC (st : Buttons) (row : Row) : Buttons :=
  st.map (fun p =>
    match lookupRow row p.2.column with
    | some v => (p.1, { p.2 with url := v })
    | none => p)

/-- part_001 `loadFromLocalStorage()`: read the cache; on a parse failure the
exception is caught and `false` returned; on success the map is replaced and
the DOM synchronized. Returns (new buttons, return value, events). -/
def loadFromLocalStorage (st : Buttons) (c : CacheState) :
    Buttons × Bool × List LEvent :=
  match c with
  | CacheState.absent => (st, false, [LEvent.readCache])
  | CacheState.malformed => (st, false, [LEvent.readCache])
  | CacheState.stored b => (b, true, [LEvent.readCache, LEvent.domSync b])

/-- part_001 `loadButtonData` (the loader `init` runs, on a non-admin page):
fetch the SheetDB API; if the response is ok and nonempty, copy the mapped
columns of the first row into the button urls, write the cache, and
synchronize the DOM; if the response is not ok, fall back to the local cache;
a rejected fetch, a body that fails to parse, or a cache that fails to parse
is caught and `false` is returned with nothing applied.
Returns (new buttons, return value, events). -/
def loadButtonData (st : Buttons) (env : LoadEnv) :
    Buttons × Bool × List LEvent :=
  match env.api with
  | FetchOutcome.netError => (st, false, [LEvent.fetchApi])
  | FetchOutcome.parseError => (st, false, [LEvent.fetchApi])
  | FetchOutcome.httpError =>
      match env.cache with
      | CacheState.absent =>
          (st, true, [LEvent.fetchApi, LEvent.readCache, LEvent.domSync st])
      | CacheState.malformed =>
          (st, false, [LEvent.fetchApi, LEvent.readCache])
      | CacheState.stored b =>
          (b, true, [LEvent.fetchApi, LEvent.readCache, LEvent.domSync b])
  | FetchOutcome.ok rows =>
      match rows with
      | [] => (st, true, [LEvent.fetchApi, LEvent.domSync st])
      | row :: _ =>
          let st' := updateUrls st row
          (st', true, [LEvent.fetchApi, LEvent.writeCache st', LEvent.domSync st'])

/-- part_001 `loadConfig()` (called from `reload()`): fetch the SheetDB API;
a rejected fetch, a non-ok response or an unparseable body throws and the
catch returns `loadFromLocalStorage()`; on ok nonempty data copy the mapped
columns of the first row, and write the cache only when some column matched. -/
def loadConfig (st : Buttons) (env : LoadEnv) : Buttons × Bool × List LEvent :=
  match env.api with
  | FetchOutcome.ok rows =>
      match rows with
      | [] => (st, false, [LEvent.fetchApi])
      | row :: _ =>
          let hasUpdates := st.any (fun p => (lookupRow row p.2.column).isSome)
          let st' := updateUrlsLC st row
          if hasUpdates then
            (st', true, [LEvent.fetchApi, LEvent.writeCache st'])
          else
            (st', false, [LEvent.fetchApi])
  | _ =>
      let r := loadFromLocalStorage st env.cache
      (r.1, r.2.1, LEvent.fetchApi :: r.2.2)

/-! ## DOM model and the synchronizers -/

/-- A DOM element as the synchronizers see it: its class list and the three
attributes they write (href, textContent, title). -/
@[ext]
structure Elem where
  classes : List String
  href : String
  textContent : String
  title : String
deriving DecidableEq

/-- Class-list form of the selector `.btn.<t>`. -/
def matchCompoundC (t : String) (cs : List String) : Bool :=
  cs.contains "btn" && cs.contains t

/-- Class-list form of the selector `.<t>`. -/
def matchSimpleC (t : String) (cs : List String) : Bool :=
  cs.contains t

/-- `querySelectorAll('.btn.' + t)` membership for one element. -/
def matchCompound (t : String) (e : Elem) : Bool :=
  matchCompoundC t e.classes

/-- `querySelectorAll('.' + t)` membership for one element. -/
def matchSimple (t : String) (e : Elem) : Bool :=
  matchSimpleC t e.classes

/-- The body of part_001 `updateButtons` for one selected element:
`if (data.url) button.href = data.url;`
`if (data.displayText) ... else if (data.text) button.textContent = ...;`
`if (data.description) button.title = data.description;`
(the three writes target distinct attributes, so the sequence is recorded
fieldwise). -/
def applyData (d : ButtonData) (e : Elem) : Elem :=
  { classes := e.classes
    href := if d.url == "" then e.href else d.url
    textContent :=
      if d.displayText == "" then
        (if d.text == "" then e.textContent else d.text)
      else d.displayText
    title := if d.description == "" then e.title else d.description }

/-- One iteration of part_001 `updateButtons` over `Object.entries`:
try the compound selector `.btn.<t>`; if it selects nothing in the whole
document, fall back to the plain selector `.<t>`; update every selected
element. -/
def applyEntry (t : String) (d : ButtonData) (dom : List Elem) : List Elem :=
  if dom.any (matchCompound t) then
    dom.map (fun e => if matchCompound t e then applyData d e else e)
  else
    dom.map (fun e => if matchSimple t e then applyData d e else e)

/-- part_001 `updateButtons(snapshot)` over the whole entry list. -/
def updateButtons (b : Buttons) (dom : List Elem) : List Elem :=
  b.foldl (fun acc p => applyEntry p.1 p.2 acc) dom

/-- A button record of script.js's configuration (`{text, url, description?}`);
`description := ""` models an absent property. -/
structure SBtn where
  text : String
  url : String
  description : String
deriving DecidableEq

/-- script.js `config.buttons`: ordered object keyed by logical name. -/
abbrev SConfig := List (String × SBtn)

/-- The body of script.js `updateButtons` for the selected element:
`href = url; textContent = text; if (description) title = description`. -/
def applyDataS (d : SBtn) (e : Elem) : Elem :=
  { classes := e.classes
    href := d.url
    textContent := d.text
    title := if d.description == "" then e.title else d.description }

/-- `document.querySelector('.btn.' + t)`: update only the first element the
compound selector matches, if any. -/
def updFirst (t : String) (f : Elem → Elem) : List Elem → List Elem
  | [] => []
  | e :: rest =>
      if matchCompound t e then f e :: rest else e :: updFirst t f rest

/-- script.js `updateButtons()` over `Object.keys(this.config.buttons)`. -/
def sUpdateButtons (c : SConfig) (dom : List Elem) : List Elem :=
  c.foldl (fun acc p => updFirst p.1 (applyDataS p.2) acc) dom

/-! ## script.js loader and watcher -/

/-- script.js `loadConfig` fallback object (lines 38-45). -/
def sDefaultConfig : SConfig :=
  [("primary", { text := "Get Started", url := "#", description := "" }),
   ("secondary", { text := "Learn More", url := "#", description := "" }),
   ("accent", { text := "Join Now", url := "#", description := "" })]

/-- script.js `loadConfig()`: fetch `./config.json`; a rejected fetch, a
non-ok response or an unparseable body is caught and the built-in default
configuration is installed instead. The configuration document is modelled
by its `buttons` mapping, the only part the rest of the file consumes. -/
def sLoadConfigJs (r : FetchOutcome SConfig) : SConfig :=
  match r with
  | FetchOutcome.ok c => c
  | _ => sDefaultConfig

/-- `JSON.stringify` of a script.js button record (serialization of the
modelled fields; literal braces written as escapes). -/
def encodeSBtn (b : SBtn) : String :=
  "\x7b\"text\":\"" ++ b.text ++ "\",\"url\":\"" ++ b.url
    ++ "\",\"description\":\"" ++ b.description ++ "\"\x7d"

/-- `JSON.stringify` of a configuration document, modelled on its `buttons`
mapping in key order. -/
def encodeSConfig (c : SConfig) : String :=
  "\x7b\"buttons\":\x7b"
    ++ String.intercalate ","
        (c.map (fun p => "\"" ++ p.1 ++ "\":" ++ encodeSBtn p.2))
    ++ "\x7d\x7d"

/-- One tick of script.js `setupConfigWatcher`: fetch the config; on an ok,
parseable response compare `JSON.stringify(newConfig)` with the stringified
current config and reload the buttons only when the strings differ; every
failure is silently swallowed. Returns (new config, whether `updateButtons`
was invoked). -/
def setupConfigWatcherTick (cfg : SConfig) (r : FetchOutcome SConfig) :
    SConfig × Bool :=
  match r with
  | FetchOutcome.ok newC =>
      if encodeSConfig newC == encodeSConfig cfg then (cfg, false)
      else (newC, true)
  | _ => (cfg, false)

/-! ## part_001 updateButton (the remote update writer) -/

/-- A patch passed to `updateButton`; `none` fields are absent from the
object literal and left alone by the spread merge. -/
structure Patch where
  text : Option String
  url : Option String
  column : Option String
  displayText : Option String
  description : Option String
deriving DecidableEq

/-- `{ ...this.buttons[name], ...updates }` followed by
`this.buttons[name].lastUpdated = new Date().toISOString()`. -/
def mergeButton (bd : ButtonData) (p : Patch) (now : String) : ButtonData :=
  { text := p.text.getD bd.text
    url := p.url.getD bd.url
    column := p.column.getD bd.column
    displayText := p.displayText.getD bd.displayText
    description := p.description.getD bd.description
    lastUpdated := now }

/-- Observable effects of `updateButton`, in order of occurrence. -/
inductive UBEvent where
  | domSync : Buttons → UBEvent
  | remoteGet : UBEvent
  | remotePost : UBEvent
  | cacheWrite : Buttons → UBEvent
deriving DecidableEq

/-- Outcome of the POST that creates a row when the sheet is empty. -/
inductive CreateOutcome where
  | netError : CreateOutcome
  | notOk : CreateOutcome
  | ok : CreateOutcome
deriving DecidableEq

/-- What the remote side does during `updateButton`'s persist phase:
the initial GET rejects / is non-ok / has an unparseable body, or it
delivers no rows (a POST follows), or it delivers a first row.
NOTE: on the existing-row path the source logs a template literal that
references the undefined variable `rowId`; the resulting ReferenceError is
thrown before the PATCH request and lands in the catch block, so that path
never reaches the remote store. -/
inductive WriteEnv where
  | findNetError : WriteEnv
  | findNotOk : WriteEnv
  | findParseError : WriteEnv
  | findEmpty : CreateOutcome → WriteEnv
  | findRow : Row → WriteEnv
deriving DecidableEq

/-- Every persist-phase outcome that makes `updateButton` return false
(everything except a successful row creation; the existing-row path always
fails through the `rowId` ReferenceError). -/
def writeFails : WriteEnv → Bool
  | WriteEnv.findEmpty CreateOutcome.ok => false
  | _ => true

/-- The property keys of `Object.prototype`, the prototype of the
`this.buttons` object literal. A read `this.buttons[name]` for a name that is
not an own key still resolves to a truthy value (a function, or for
`__proto__` the accessor yielding the prototype object) when `name` is one of
these, so the truthiness guard in `updateButton` does not fire for them. -/
def objectProtoKeys : List String :=
  ["constructor", "hasOwnProperty", "isPrototypeOf", "propertyIsEnumerable",
   "toLocaleString", "toString", "valueOf", "__proto__",
   "__defineGetter__", "__defineSetter__", "__lookupGetter__", "__lookupSetter__"]

/-- Whether a property read on the button object hits `Object.prototype`. -/
def protoMember (name : String) : Bool := objectProtoKeys.contains name

/-- The record produced by spreading a prototype-chain hit: a function (or
the prototype object) has no own enumerable properties, so every field is
absent; the patch is merged over this. -/
def emptyButtonData : ButtonData :=
  { text := "", url := "", column := "", displayText := "",
    description := "", lastUpdated := "" }

/-- part_001 `updateButton(name, updates)`: the guard
`if (!this.buttons[buttonType])` is a truthiness test on a prototype-chain
property read. A name that is neither an own key nor an `Object.prototype`
key reads as undefined → return false with no effect. For an own key, merge
the patch, stamp `lastUpdated`, synchronize the DOM, then persist: GET the
sheet; on empty data POST a new row; on an existing row throw (see
`WriteEnv`); every failure is caught, the merged map is still written to the
local cache, and false is returned; on success the cache is written and true
returned. For an absent name that hits `Object.prototype` the guard passes
too: the patch is merged over the empty record (the prototype hit contributes
no own enumerable properties) and assigned — adding a new own key, except for
`__proto__`, whose setter replaces the prototype and leaves the own-key map
unchanged — and the DOM sync, the GET and the cache write all still happen.
Returns (new buttons, events, return value). -/
def updateButton (btns : Buttons) (name : String) (p : Patch) (now : String)
    (env : WriteEnv) : Buttons × List UBEvent × Bool :=
  match lookupB btns name with
  | none =>
      if name == "__proto__" then
        match env with
        | WriteEnv.findNetError =>
            (btns, [UBEvent.domSync btns, UBEvent.remoteGet,
                    UBEvent.cacheWrite btns], false)
        | WriteEnv.findNotOk =>
            (btns, [UBEvent.domSync btns, UBEvent.remoteGet,
                    UBEvent.cacheWrite btns], false)
        | WriteEnv.findParseError =>
            (btns, [UBEvent.domSync btns, UBEvent.remoteGet,
                    UBEvent.cacheWrite btns], false)
        | WriteEnv.findEmpty c =>
            (btns, [UBEvent.domSync btns, UBEvent.remoteGet, UBEvent.remotePost,
                    UBEvent.cacheWrite btns], c == CreateOutcome.ok)
        | WriteEnv.findRow _ =>
            (btns, [UBEvent.domSync btns, UBEvent.remoteGet,
                    UBEvent.cacheWrite btns], false)
      else if protoMember name then
        let merged := mergeButton emptyButtonData p now
        let btns' := btns ++ [(name, merged)]
        match env with
        | WriteEnv.findNetError =>
            (btns', [UBEvent.domSync btns', UBEvent.remoteGet,
                     UBEvent.cacheWrite btns'], false)
        | WriteEnv.findNotOk =>
            (btns', [UBEvent.domSync btns', UBEvent.remoteGet,
                     UBEvent.cacheWrite btns'], false)
        | WriteEnv.findParseError =>
            (btns', [UBEvent.domSync btns', UBEvent.remoteGet,
                     UBEvent.cacheWrite btns'], false)
        | WriteEnv.findEmpty c =>
            (btns', [UBEvent.domSync btns', UBEvent.remoteGet, UBEvent.remotePost,
                     UBEvent.cacheWrite btns'], c == CreateOutcome.ok)
        | WriteEnv.findRow _ =>
            (btns', [UBEvent.domSync btns', UBEvent.remoteGet,
                     UBEvent.cacheWrite btns'], false)
      else (btns, [], false)
  | some bd =>
      let merged := mergeButton bd p now
      let btns' := setB btns name merged
      match env with
      | WriteEnv.findNetError =>
          (btns', [UBEvent.domSync btns', UBEvent.remoteGet,
                   UBEvent.cacheWrite btns'], false)
      | WriteEnv.findNotOk =>
          (btns', [UBEvent.domSync btns', UBEvent.remoteGet,
                   UBEvent.cacheWrite btns'], false)
      | WriteEnv.findParseError =>
          (btns', [UBEvent.domSync btns', UBEvent.remoteGet,
                   UBEvent.cacheWrite btns'], false)
      | WriteEnv.findEmpty c =>
          (btns', [UBEvent.domSync btns', UBEvent.remoteGet, UBEvent.remotePost,
                   UBEvent.cacheWrite btns'], c == CreateOutcome.ok)
      | WriteEnv.findRow _ =>
          (btns', [UBEvent.domSync btns', UBEvent.remoteGet,
                   UBEvent.cacheWrite btns'], false)

/-! ## Machinery for the idempotence proof

Both synchronizers are shown equal to a `run` of masked element updates,
where each mask is computed from the class profile of the document alone;
since the updates never touch class lists, applying a synchronizer twice
runs the same mask/update steps twice, and each update writes constants. -/

/-- The class profile of a document: what the selectors can observe. -/
def profileOf (dom : List Elem) : List (List String) := dom.map Elem.classes

/-- A masked step: which element positions to update, and how. -/
abbrev MStep := List Bool × (Elem → Elem)

/-- Apply `f` at the positions the mask marks; a missing mask entry means
the position is untouched. -/
def applyMask : List Bool → (Elem → Elem) → List Elem → List Elem
  | b :: ms, f, e :: es => (if b then f e else e) :: applyMask ms f es
  | _, _, es => es

/-- Run a list of masked steps over a document, in order. -/
def runSteps (steps : List MStep) (dom : List Elem) : List Elem :=
  steps.foldl (fun acc s => applyMask s.1 s.2 acc) dom

/-- Head of a mask (`false` when the mask is exhausted). -/
def mhead : List Bool → Bool
  | [] => false
  | b :: _ => b

/-- Tail of a mask. -/
def mtail : List Bool → List Bool
  | [] => []
  | _ :: ms => ms

/-- The composite update a step list applies to one element position. -/
def pointApply (steps : List MStep) (e : Elem) : Elem :=
  steps.foldl (fun x s => if mhead s.1 then s.2 x else x) e

/-- Drop the first mask entry of every step (the steps seen by the tail of
the document). -/
def stepsTail (steps : List MStep) : List MStep :=
  steps.map (fun s => (mtail s.1, s.2))

/-- An element update that preserves the class list and writes each of the
three attributes either not at all (for every input) or to a fixed constant
(for every input). Both synchronizers' per-element updates have this shape. -/
def ConstWrite (f : Elem → Elem) : Prop :=
  (∀ e, (f e).classes = e.classes) ∧
  ((∀ e, (f e).href = e.href) ∨ (∃ c, ∀ e, (f e).href = c)) ∧
  ((∀ e, (f e).textContent = e.textContent) ∨ (∃ c, ∀ e, (f e).textContent = c)) ∧
  ((∀ e, (f e).title = e.title) ∨ (∃ c, ∀ e, (f e).title = c))

/-- The mask part_001's `applyEntry t d` uses, computed from the profile:
all compound matches if there are any, else all plain matches. -/
def mkMask (t : String) (profs : List (List String)) : List Bool :=
  if profs.any (matchCompoundC t) then profs.map (matchCompoundC t)
  else profs.map (matchSimpleC t)

/-- part_001 `updateButtons` as a masked-step list. -/
def mkSteps (b : Buttons) (profs : List (List String)) : List MStep :=
  b.map (fun p => (mkMask p.1 profs, applyData p.2))

/-- Keep only the first `true` of a mask (the `querySelector` selection). -/
def firstMask : List Bool → List Bool
  | [] => []
  | b :: bs => if b then true :: bs.map (fun _ => false) else false :: firstMask bs

/-- script.js `updateButtons` as a masked-step list. -/
def sMkSteps (c : SConfig) (profs : List (List String)) : List MStep :=
  c.map (fun p => (firstMask (profs.map (matchCompoundC p.1)), applyDataS p.2))

/-! ## Auxiliary predicate and concrete inputs used by the final theorems -/

/-- The cache, when it holds a parsed snapshot, holds one with all configured
keys (true of every snapshot the code itself writes to the cache). -/
def cacheHasKeys : CacheState → Bool
  | CacheState.stored b => hasAllKeys b
  | _ => true

/-- The constructor default for the primary button, by itself. -/
def bdPrimary : ButtonData :=
  { text := "Get Started", url := "#", column := "btn1",
    displayText := "Get Started", description := "", lastUpdated := "" }

/-- A snapshot the static `config.json` source could deliver, pointing the
primary button at a distinct URL. -/
def staticAlt : Buttons :=
  [("primary", { bdPrimary with url := "https://static.example/start" })]

/-- A previously cached snapshot distinct from the constructor defaults. -/
def cachedAlt : Buttons :=
  [("primary", { bdPrimary with url := "https://cached.example/start" }),
   ("secondary",
    { text := "Learn More", url := "#", column := "btn2",
      displayText := "Learn More", description := "", lastUpdated := "" }),
   ("accent",
    { text := "Join Now", url := "#", column := "btn3",
      displayText := "Join Now", description := "", lastUpdated := "" })]

/-- The url patch of the spec's example call: updateButton of "primary" with
a patch whose url is "https://example.com". -/
def patchUrlExample : Patch :=
  { text := none, url := some "https://example.com", column := none,
    displayText := none, description := none }

/-- A fixed `new Date().toISOString()` value. -/
def isoNow : String := "2026-01-01T00:00:00.000Z"

/-! ## Lemmas: masked runs -/

theorem applyMask_nil (m : List Bool) (f : Elem → Elem) : applyMask m f [] = [] := by
  cases m <;> rfl

theorem applyMask_cons (m : List Bool) (f : Elem → Elem) (e : Elem) (es : List Elem) :
    applyMask m f (e :: es)
      = (if mhead m then f e else e) :: applyMask (mtail m) f es := by
  cases m <;> rfl

theorem runSteps_nil (steps : List MStep) : runSteps steps [] = [] := by
  induction steps with
  | nil => rfl
  | cons s ss ih =>
      show runSteps ss (applyMask s.1 s.2 []) = []
      rw [applyMask_nil]
      exact ih

theorem runSteps_cons_step (s : MStep) (ss : List MStep) (dom : List Elem) :
    runSteps (s :: ss) dom = runSteps ss (applyMask s.1 s.2 dom) := rfl

theorem pointApply_cons (s : MStep) (ss : List MStep) (e : Elem) :
    pointApply (s :: ss) e = pointApply ss (if mhead s.1 then s.2 e else e) := rfl

theorem runSteps_cons (steps : List MStep) (e : Elem) (es : List Elem) :
    runSteps steps (e :: es)
      = pointApply steps e :: runSteps (stepsTail steps) es := by
  induction steps generalizing e es with
  | nil => rfl
  | cons s ss ih =>
      rw [runSteps_cons_step, applyMask_cons, ih]
      rfl

theorem runSteps_append (s t : List MStep) (dom : List Elem) :
    runSteps (s ++ t) dom = runSteps t (runSteps s dom) := by
  simp [runSteps, List.foldl_append]

theorem pointApply_append (s t : List MStep) (e : Elem) :
    pointApply (s ++ t) e = pointApply t (pointApply s e) := by
  simp [pointApply, List.foldl_append]

theorem stepsTail_append (s t : List MStep) :
    stepsTail (s ++ t) = stepsTail s ++ stepsTail t := by
  simp [stepsTail]

/-! ## Lemmas: constant-write updates -/

theorem constWrite_id : ConstWrite (fun e => e) :=
  ⟨fun _ => rfl, Or.inl fun _ => rfl, Or.inl fun _ => rfl, Or.inl fun _ => rfl⟩

theorem fieldCW_comp {get : Elem → String} {f g : Elem → Elem}
    (hf : (∀ e, get (f e) = get e) ∨ (∃ c, ∀ e, get (f e) = c))
    (hg : (∀ e, get (g e) = get e) ∨ (∃ c, ∀ e, get (g e) = c)) :
    (∀ e, get (g (f e)) = get e) ∨ (∃ c, ∀ e, get (g (f e)) = c) := by
  rcases hg with hg | ⟨c, hg⟩
  · rcases hf with hf | ⟨c, hf⟩
    · exact Or.inl fun e => (hg (f e)).trans (hf e)
    · exact Or.inr ⟨c, fun e => (hg (f e)).trans (hf e)⟩
  · exact Or.inr ⟨c, fun e => hg (f e)⟩

theorem constWrite_comp {f g : Elem → Elem}
    (hf : ConstWrite f) (hg : ConstWrite g) : ConstWrite (fun e => g (f e)) := by
  obtain ⟨hfc, hf1, hf2, hf3⟩ := hf
  obtain ⟨hgc, hg1, hg2, hg3⟩ := hg
  exact ⟨fun e => (hgc (f e)).trans (hfc e),
    fieldCW_comp hf1 hg1, fieldCW_comp hf2 hg2, fieldCW_comp hf3 hg3⟩

theorem constWrite_ite {f : Elem → Elem} (b : Bool) (hf : ConstWrite f) :
    ConstWrite (fun e => if b then f e else e) := by
  cases b
  · simpa using constWrite_id
  · simpa using hf

theorem constWrite_pointApply {steps : List MStep}
    (h : ∀ s ∈ steps, ConstWrite s.2) :
    ConstWrite (fun e => pointApply steps e) := by
  induction steps with
  | nil => simpa [pointApply] using constWrite_id
  | cons s ss ih =>
      have h1 : ConstWrite (fun e => if mhead s.1 then s.2 e else e) :=
        constWrite_ite _ (h s (by simp))
      have h2 : ConstWrite (fun e => pointApply ss e) :=
        ih (fun t ht => h t (by simp [ht]))
      exact @constWrite_comp (fun e => if mhead s.1 then s.2 e else e)
        (fun e => pointApply ss e) h1 h2

theorem constWrite_idem {f : Elem → Elem} (hf : ConstWrite f) (e : Elem) :
    f (f e) = f e := by
  obtain ⟨hc, h1, h2, h3⟩ := hf
  refine Elem.ext ?_ ?_ ?_ ?_
  · exact hc (f e)
  · rcases h1 with h | ⟨c, h⟩
    · exact h (f e)
    · exact (h (f e)).trans (h e).symm
  · rcases h2 with h | ⟨c, h⟩
    · exact h (f e)
    · exact (h (f e)).trans (h e).symm
  · rcases h3 with h | ⟨c, h⟩
    · exact h (f e)
    · exact (h (f e)).trans (h e).symm

/-! ## Lemmas: class profiles -/

theorem profile_applyMask {f : Elem → Elem} (hf : ∀ e, (f e).classes = e.classes)
    (m : List Bool) (dom : List Elem) :
    profileOf (applyMask m f dom) = profileOf dom := by
  induction m generalizing dom with
  | nil => rfl
  | cons b ms ih =>
      cases dom with
      | nil => rfl
      | cons e es =>
          cases b <;> simp [applyMask, profileOf, hf, ih es] <;>
            simpa [profileOf] using ih es

theorem profile_runSteps {steps : List MStep}
    (h : ∀ s ∈ steps, ∀ e, (s.2 e).classes = e.classes) (dom : List Elem) :
    profileOf (runSteps steps dom) = profileOf dom := by
  induction steps generalizing dom with
  | nil => rfl
  | cons s ss ih =>
      rw [runSteps_cons_step, ih (fun t ht => h t (by simp [ht])),
        profile_applyMask (h s (by simp))]

theorem runSteps_dup (dom : List Elem) :
    ∀ steps : List MStep, (∀ s ∈ steps, ConstWrite s.2) →
      runSteps (steps ++ steps) dom = runSteps steps dom := by
  induction dom with
  | nil => intro steps _; rw [runSteps_nil, runSteps_nil]
  | cons e es ih =>
      intro steps h
      rw [runSteps_cons, runSteps_cons, stepsTail_append, pointApply_append]
      have hpt : pointApply steps (pointApply steps e) = pointApply steps e :=
        constWrite_idem (constWrite_pointApply h) e
      rw [hpt, ih (stepsTail steps) ?_]
      intro s hs
      rcases List.mem_map.mp hs with ⟨t, ht, rfl⟩
      exact h t ht

/-! ## Lemmas: the synchronizers as masked runs -/

theorem applyData_classes (d : ButtonData) :
    ∀ e, (applyData d e).classes = e.classes := fun _ => rfl

theorem applyDataS_classes (d : SBtn) :
    ∀ e, (applyDataS d e).classes = e.classes := fun _ => rfl

theorem constWrite_applyData (d : ButtonData) : ConstWrite (applyData d) := by
  refine ⟨fun e => rfl, ?_, ?_, ?_⟩
  · by_cases h : d.url == ""
    · exact Or.inl fun e => by simp [applyData, h]
    · exact Or.inr ⟨d.url, fun e => by simp [applyData, h]⟩
  · by_cases h1 : d.displayText == ""
    · by_cases h2 : d.text == ""
      · exact Or.inl fun e => by simp [applyData, h1, h2]
      · exact Or.inr ⟨d.text, fun e => by simp [applyData, h1, h2]⟩
    · exact Or.inr ⟨d.displayText, fun e => by simp [applyData, h1]⟩
  · by_cases h : d.description == ""
    · exact Or.inl fun e => by simp [applyData, h]
    · exact Or.inr ⟨d.description, fun e => by simp [applyData, h]⟩

theorem constWrite_applyDataS (d : SBtn) : ConstWrite (applyDataS d) := by
  refine ⟨fun e => rfl, Or.inr ⟨d.url, fun e => rfl⟩,
    Or.inr ⟨d.text, fun e => rfl⟩, ?_⟩
  by_cases h : d.description == ""
  · exact Or.inl fun e => by simp [applyDataS, h]
  · exact Or.inr ⟨d.description, fun e => by simp [applyDataS, h]⟩

theorem map_ite_mask (pred : List String → Bool) (f : Elem → Elem)
    (dom : List Elem) :
    dom.map (fun e => if pred e.classes then f e else e)
      = applyMask ((profileOf dom).map pred) f dom := by
  induction dom with
  | nil => rfl
  | cons e es ih => simp [profileOf, applyMask, ih]

theorem any_matchCompound (t : String) (dom : List Elem) :
    dom.any (matchCompound t) = (profileOf dom).any (matchCompoundC t) := by
  induction dom with
  | nil => rfl
  | cons e es ih =>
      show (matchCompound t e || es.any (matchCompound t)) = _
      rw [ih]
      rfl

theorem applyEntry_mask (t : String) (d : ButtonData) (dom : List Elem) :
    applyEntry t d dom = applyMask (mkMask t (profileOf dom)) (applyData d) dom := by
  unfold applyEntry mkMask
  rw [any_matchCompound]
  by_cases h : (profileOf dom).any (matchCompoundC t) = true
  · rw [if_pos h, if_pos h]
    exact map_ite_mask (matchCompoundC t) (applyData d) dom
  · rw [if_neg h, if_neg h]
    exact map_ite_mask (matchSimpleC t) (applyData d) dom

theorem updateButtons_runSteps (b : Buttons) (dom : List Elem) :
    updateButtons b dom = runSteps (mkSteps b (profileOf dom)) dom := by
  induction b generalizing dom with
  | nil => rfl
  | cons p rest ih =>
      show updateButtons rest (applyEntry p.1 p.2 dom) = _
      rw [ih, applyEntry_mask, profile_applyMask (applyData_classes p.2)]
      rfl

theorem applyMask_false (bs : List Bool) (f : Elem → Elem) (es : List Elem)
    (h : ∀ b ∈ bs, b = false) : applyMask bs f es = es := by
  induction bs generalizing es with
  | nil => cases es <;> rfl
  | cons b bs ih =>
      cases es with
      | nil => rfl
      | cons e es' =>
          have hb : b = false := h b (by simp)
          simp [applyMask, hb, ih es' (fun x hx => h x (by simp [hx]))]

theorem updFirst_mask (t : String) (f : Elem → Elem) (dom : List Elem) :
    updFirst t f dom
      = applyMask (firstMask ((profileOf dom).map (matchCompoundC t))) f dom := by
  induction dom with
  | nil => rfl
  | cons e es ih =>
      by_cases h : matchCompoundC t e.classes = true
      · have h1 : firstMask ((profileOf (e :: es)).map (matchCompoundC t))
            = true :: ((profileOf es).map (matchCompoundC t)).map (fun _ => false) := by
          simp [profileOf, firstMask, h]
        have h2 : updFirst t f (e :: es) = f e :: es := by
          simp [updFirst, matchCompound, h]
        have h3 : applyMask (((profileOf es).map (matchCompoundC t)).map (fun _ => false)) f es
            = es := by
          refine applyMask_false _ _ _ ?_
          intro x hx
          rcases List.mem_map.mp hx with ⟨y, _, rfl⟩
          rfl
        rw [h1, h2]
        show f e :: es
            = f e :: applyMask (((profileOf es).map (matchCompoundC t)).map (fun _ => false)) f es
        rw [h3]
      · have h1 : firstMask ((profileOf (e :: es)).map (matchCompoundC t))
            = false :: firstMask ((profileOf es).map (matchCompoundC t)) := by
          simp [profileOf, firstMask, h]
        have h2 : updFirst t f (e :: es) = e :: updFirst t f es := by
          simp [updFirst, matchCompound, h]
        rw [h1, h2]
        show e :: updFirst t f es
            = e :: applyMask (firstMask ((profileOf es).map (matchCompoundC t))) f es
        rw [ih]

theorem sUpdateButtons_runSteps (c : SConfig) (dom : List Elem) :
    sUpdateButtons c dom = runSteps (sMkSteps c (profileOf dom)) dom := by
  induction c generalizing dom with
  | nil => rfl
  | cons p rest ih =>
      show sUpdateButtons rest (updFirst p.1 (applyDataS p.2) dom) = _
      rw [ih, updFirst_mask, profile_applyMask (applyDataS_classes p.2)]
      rfl

theorem updateButtons_idem (b : Buttons) (dom : List Elem) :
    updateButtons b (updateButtons b dom) = updateButtons b dom := by
  have hcw : ∀ s ∈ mkSteps b (profileOf dom), ConstWrite s.2 := by
    intro s hs
    rcases List.mem_map.mp hs with ⟨p, _, rfl⟩
    exact constWrite_applyData p.2
  have hcls : ∀ s ∈ mkSteps b (profileOf dom), ∀ e, (s.2 e).classes = e.classes :=
    fun s hs => (hcw s hs).1
  rw [updateButtons_runSteps b (updateButtons b dom), updateButtons_runSteps b dom,
    profile_runSteps hcls, ← runSteps_append, runSteps_dup _ _ hcw]

theorem sUpdateButtons_idem (c : SConfig) (dom : List Elem) :
    sUpdateButtons c (sUpdateButtons c dom) = sUpdateButtons c dom := by
  have hcw : ∀ s ∈ sMkSteps c (profileOf dom), ConstWrite s.2 := by
    intro s hs
    rcases List.mem_map.mp hs with ⟨p, _, rfl⟩
    exact constWrite_applyDataS p.2
  have hcls : ∀ s ∈ sMkSteps c (profileOf dom), ∀ e, (s.2 e).classes = e.classes :=
    fun s hs => (hcw s hs).1
  rw [sUpdateButtons_runSteps c (sUpdateButtons c dom), sUpdateButtons_runSteps c dom,
    profile_runSteps hcls, ← runSteps_append, runSteps_dup _ _ hcw]

/-! ## Claim theorems: session gate (auth.js) -/

/-- C2: `isAuthenticated` (checkSession) returns true if and only if the
stored session marker is present, parseable, has truthy `username` and
`token`, and an `expires` that parses to a valid date strictly in the future.
Every absent, malformed, expired or schema-violating marker yields false, and
a parse failure is absorbed into the false branch, never rethrown (the
function is total over all stored contents). -/
theorem claim_c2_checkSession_iff (s : StoredAuth) (now : Int) :
    isAuthenticated s now = true ↔
      ∃ u t ts, s = StoredAuth.parsed u t (some ts)
        ∧ truthy u = true ∧ truthy t = true ∧ now < ts := by
  cases s with
  | absent => simp [isAuthenticated]
  | malformed => simp [isAuthenticated]
  | parsed u t e =>
      cases e with
      | none => simp [isAuthenticated]
      | some ts =>
          simp only [isAuthenticated, Bool.and_eq_true, decide_eq_true_eq]
          constructor
          · rintro ⟨⟨hu, ht⟩, hts⟩
            exact ⟨u, t, ts, rfl, hu, ht, hts⟩
          · rintro ⟨u', t', ts', heq, hu, ht, hts⟩
            cases heq
            exact ⟨⟨hu, ht⟩, hts⟩

/-- C7: `authenticate` scans the static credential list for an exact
username-and-password match; the admin pair yields an authenticated result
with role "admin", and every other pair is unauthenticated. -/
theorem claim_c7_authenticate :
    authenticate "admin" ADMIN_PASSWORD = AuthResult.authenticated "admin" "admin"
      ∧ ∀ u p : String, ¬(u = "admin" ∧ p = ADMIN_PASSWORD) →
          authenticate u p = AuthResult.unauthenticated := by
  constructor
  · rfl
  · intro u p h
    have hf : (("admin" : String) == u && ("G9m#tX2!pV7q@Lz4" : String) == p) = false := by
      rcases not_and_or.mp h with h1 | h1
      · have hne : (("admin" : String) == u) = false :=
          beq_eq_false_iff_ne.mpr (fun hh => h1 hh.symm)
        simp [hne]
      · have hne : (("G9m#tX2!pV7q@Lz4" : String) == p) = false :=
          beq_eq_false_iff_ne.mpr (fun hh => h1 hh.symm)
        simp [hne]
    simp [authenticate, AUTH_CONFIG_users, List.find?, hf]

/-- C7 witness: the admin pair authenticates; a wrong password does not. -/
theorem claim_c7_authenticate_witness :
    authenticate "admin" ADMIN_PASSWORD = AuthResult.authenticated "admin" "admin"
      ∧ authenticate "admin" "letmein" = AuthResult.unauthenticated :=
  ⟨claim_c7_authenticate.1,
    claim_c7_authenticate.2 "admin" "letmein" (by decide)⟩

/-- C10: a marker that parses with truthy username and token but whose
`expires` is not a valid date makes `isAuthenticated` return false (the
comparison against an invalid date is false), and `getCurrentUser` returns
null, never throws, on absent or unparseable stored data. -/
theorem claim_c10_invalid_expires (u t : Option JsonVal) (now : Int)
    (hu : truthy u = true) (ht : truthy t = true) :
    isAuthenticated (StoredAuth.parsed u t none) now = false
      ∧ getCurrentUser StoredAuth.malformed = none
      ∧ getCurrentUser StoredAuth.absent = none := by
  refine ⟨?_, rfl, rfl⟩
  simp [isAuthenticated]

/-- C10 witness at a concrete parsed-but-invalid-date marker. -/
theorem claim_c10_invalid_expires_witness :
    isAuthenticated (StoredAuth.parsed (some (JsonVal.jstr "alice"))
        (some (JsonVal.jstr "tok")) none) 0 = false
      ∧ getCurrentUser StoredAuth.malformed = none
      ∧ getCurrentUser StoredAuth.absent = none :=
  claim_c10_invalid_expires (some (JsonVal.jstr "alice"))
    (some (JsonVal.jstr "tok")) 0 (by decide) (by decide)

/-! ## Claim theorems: config loading (C1, C5) -/

/-- C1 counterexample: the claim says the loader falls back from the primary
hosted API to the static JSON file, so that when the primary fails and the
static source succeeds the applied snapshot equals the static source's data.
Concretely: the API responds non-ok, the static source holds `staticAlt`, the
cache is empty — yet `loadButtonData` applies the constructor defaults, not
`staticAlt` (the static file is never consulted). -/
theorem claim_c1_counterexample :
    (loadButtonData defaultButtons
        ⟨FetchOutcome.httpError, FetchOutcome.ok staticAlt, CacheState.absent⟩).1
      = defaultButtons
    ∧ defaultButtons ≠ staticAlt := by
  refine ⟨rfl, ?_⟩
  decide

/-- C1 (amended): the hosted-API loader attempts the primary hosted API first
and falls back directly to the local cache; the static JSON file source is
never consulted (its outcome never changes the result of `loadButtonData` or
`loadConfig`), and whenever the primary source fails with a non-ok response
and the cache holds a parseable snapshot, the snapshot finally applied equals
the cached snapshot. -/
theorem claim_c1_loader_order :
    (∀ (st : Buttons) (env : LoadEnv),
        ((loadButtonData st env).2.2).head? = some LEvent.fetchApi)
    ∧ (∀ (st : Buttons) (env : LoadEnv) (sf : FetchOutcome Buttons),
        loadButtonData st { env with staticFile := sf } = loadButtonData st env)
    ∧ (∀ (st : Buttons) (sf : FetchOutcome Buttons) (b : Buttons),
        (loadButtonData st ⟨FetchOutcome.httpError, sf, CacheState.stored b⟩).1 = b)
    ∧ (∀ (st : Buttons) (env : LoadEnv) (sf : FetchOutcome Buttons),
        loadConfig st { env with staticFile := sf } = loadConfig st env) := by
  refine ⟨?_, ?_, ?_, ?_⟩
  · intro st env
    rcases env with ⟨api, sf, cache⟩
    cases api with
    | netError => rfl
    | httpError => cases cache <;> rfl
    | parseError => rfl
    | ok rows => cases rows <;> rfl
  · intro st env sf
    rcases env with ⟨api, sf0, cache⟩
    cases api with
    | netError => rfl
    | httpError => cases cache <;> rfl
    | parseError => rfl
    | ok rows => cases rows <;> rfl
  · intro st sf b
    rfl
  · intro st env sf
    rcases env with ⟨api, sf0, cache⟩
    cases api with
    | netError => rfl
    | httpError => rfl
    | parseError => rfl
    | ok rows => cases rows <;> rfl

/-- C5 counterexample: the claim says that when every remote source fails the
applied snapshot equals the cached one whenever a cache exists. Concretely:
the fetch rejects (network error), the cache holds `cachedAlt` — yet
`loadButtonData` catches the error, returns false and leaves the constructor
defaults applied; the cache is not consulted on this failure path. -/
theorem claim_c5_counterexample :
    (loadButtonData defaultButtons
        ⟨FetchOutcome.netError, FetchOutcome.netError, CacheState.stored cachedAlt⟩).1
      = defaultButtons
    ∧ defaultButtons ≠ cachedAlt := by
  refine ⟨rfl, ?_⟩
  decide

/-- C5 (amended): when the hosted API responds non-ok, the applied snapshot is
the cached one if a parseable cache exists and otherwise the current (at
startup: default) snapshot; but when the fetch or body parse throws, the
current snapshot stays applied even if a cache exists. script.js's loader
falls back to its built-in default configuration on every failure and never
reads the cache. -/
theorem claim_c5_fallback :
    (∀ (st : Buttons) (sf : FetchOutcome Buttons) (b : Buttons),
        (loadButtonData st ⟨FetchOutcome.httpError, sf, CacheState.stored b⟩).1 = b)
    ∧ (∀ (st : Buttons) (sf : FetchOutcome Buttons),
        (loadButtonData st ⟨FetchOutcome.httpError, sf, CacheState.absent⟩).1 = st)
    ∧ (∀ (st : Buttons) (sf : FetchOutcome Buttons) (c : CacheState),
        (loadButtonData st ⟨FetchOutcome.netError, sf, c⟩).1 = st)
    ∧ (∀ (st : Buttons) (sf : FetchOutcome Buttons) (c : CacheState),
        (loadButtonData st ⟨FetchOutcome.parseError, sf, c⟩).1 = st)
    ∧ sLoadConfigJs FetchOutcome.netError = sDefaultConfig
    ∧ sLoadConfigJs FetchOutcome.httpError = sDefaultConfig
    ∧ sLoadConfigJs FetchOutcome.parseError = sDefaultConfig :=
  ⟨fun _ _ _ => rfl, fun _ _ => rfl, fun _ _ _ => rfl, fun _ _ _ => rfl,
    rfl, rfl, rfl⟩

/-! ## Claim theorems: poller (C6) -/

/-- C6 counterexample: one poll tick of the hosted-API watcher (`init` runs
`loadButtonData` on an interval). The fetched first row carries no mapped
columns, so the new snapshot is structurally equal to the applied one — yet
the DOM synchronizer is invoked anyway: this tick does no comparison. -/
theorem claim_c6_counterexample :
    (loadButtonData defaultButtons
        ⟨FetchOutcome.ok [[]], FetchOutcome.netError, CacheState.absent⟩).1
      = defaultButtons
    ∧ LEvent.domSync defaultButtons
        ∈ (loadButtonData defaultButtons
            ⟨FetchOutcome.ok [[]], FetchOutcome.netError, CacheState.absent⟩).2.2 := by
  decide

/-- C6 (amended): the config.json watcher of script.js compares the fetched
document to the current one by `JSON.stringify` equality and re-invokes the
synchronizer only when they differ — an equal snapshot is never re-applied,
and whenever it does re-apply, the fetched document really differs and
becomes current. The hosted-API poll tick (`loadButtonData`), by contrast,
re-invokes the synchronizer on every tick whose response is ok and nonempty,
without comparing snapshots. -/
theorem claim_c6_poller :
    (∀ cfg : SConfig,
        setupConfigWatcherTick cfg (FetchOutcome.ok cfg) = (cfg, false))
    ∧ (∀ (cfg : SConfig) (r : FetchOutcome SConfig),
        (setupConfigWatcherTick cfg r).2 = true →
          ∃ newC, r = FetchOutcome.ok newC ∧ newC ≠ cfg
            ∧ (setupConfigWatcherTick cfg r).1 = newC)
    ∧ (∀ (st : Buttons) (row : Row) (rest : List Row) (sf : FetchOutcome Buttons)
        (c : CacheState),
        LEvent.domSync (updateUrls st row)
          ∈ (loadButtonData st ⟨FetchOutcome.ok (row :: rest), sf, c⟩).2.2) := by
  refine ⟨?_, ?_, ?_⟩
  · intro cfg
    simp [setupConfigWatcherTick]
  · intro cfg r hinv
    cases r with
    | netError => simp [setupConfigWatcherTick] at hinv
    | httpError => simp [setupConfigWatcherTick] at hinv
    | parseError => simp [setupConfigWatcherTick] at hinv
    | ok newC =>
        by_cases h : (encodeSConfig newC == encodeSConfig cfg) = true
        · simp [setupConfigWatcherTick, h] at hinv
        · refine ⟨newC, rfl, ?_, ?_⟩
          · intro hEq
            exact h (by rw [hEq]; exact beq_self_eq_true _)
          · simp [setupConfigWatcherTick, h]
  · intro st row rest sf c
    simp [loadButtonData]

/-- C6 witness: a tick where the watcher does re-apply — the current config is
empty and the fetch delivers the default configuration. -/
theorem claim_c6_poller_witness :
    ∃ newC, FetchOutcome.ok sDefaultConfig = FetchOutcome.ok newC
      ∧ newC ≠ ([] : SConfig)
      ∧ (setupConfigWatcherTick [] (FetchOutcome.ok sDefaultConfig)).1 = newC :=
  claim_c6_poller.2.1 [] (FetchOutcome.ok sDefaultConfig) (by decide)

/-! ## Claim theorems: the remote update writer (C3, C9) -/

/-- C3: for an existing button name, `updateButton` merges the patch (a url
patch lands in the merged record's url), and the very first effect is the DOM
synchronization with the merged snapshot — before any remote request; on
every failing persist outcome the merged snapshot stays in memory, the merged
snapshot is still written to the local cache, and false is returned. -/
theorem claim_c3_updateButton_optimistic (btns : Buttons) (name : String)
    (p : Patch) (now : String) (env : WriteEnv) (bd : ButtonData)
    (hlk : lookupB btns name = some bd) :
    (∃ rest, (updateButton btns name p now env).2.1
        = UBEvent.domSync (setB btns name (mergeButton bd p now)) :: rest)
    ∧ (∀ u, p.url = some u → (mergeButton bd p now).url = u)
    ∧ (writeFails env = true →
        (updateButton btns name p now env).2.2 = false
        ∧ (updateButton btns name p now env).1 = setB btns name (mergeButton bd p now)
        ∧ UBEvent.cacheWrite (setB btns name (mergeButton bd p now))
            ∈ (updateButton btns name p now env).2.1) := by
  simp only [updateButton, hlk]
  refine ⟨?_, ?_, ?_⟩
  · cases env <;> exact ⟨_, rfl⟩
  · intro u hu
    simp [mergeButton, hu]
  · intro hw
    cases env with
    | findNetError => exact ⟨rfl, rfl, by simp⟩
    | findNotOk => exact ⟨rfl, rfl, by simp⟩
    | findParseError => exact ⟨rfl, rfl, by simp⟩
    | findRow row => exact ⟨rfl, rfl, by simp⟩
    | findEmpty c =>
        cases c with
        | ok => simp [writeFails] at hw
        | netError => exact ⟨rfl, rfl, by simp⟩
        | notOk => exact ⟨rfl, rfl, by simp⟩

/-- C3 witness: the spec's example — patch the primary button's url while the
persist fetch rejects. -/
theorem claim_c3_updateButton_optimistic_witness :
    (∃ rest, (updateButton defaultButtons "primary" patchUrlExample isoNow
          WriteEnv.findNetError).2.1
        = UBEvent.domSync (setB defaultButtons "primary"
            (mergeButton bdPrimary patchUrlExample isoNow)) :: rest)
    ∧ (∀ u, patchUrlExample.url = some u →
        (mergeButton bdPrimary patchUrlExample isoNow).url = u)
    ∧ (writeFails WriteEnv.findNetError = true →
        (updateButton defaultButtons "primary" patchUrlExample isoNow
            WriteEnv.findNetError).2.2 = false
        ∧ (updateButton defaultButtons "primary" patchUrlExample isoNow
              WriteEnv.findNetError).1
            = setB defaultButtons "primary" (mergeButton bdPrimary patchUrlExample isoNow)
        ∧ UBEvent.cacheWrite
              (setB defaultButtons "primary" (mergeButton bdPrimary patchUrlExample isoNow))
            ∈ (updateButton defaultButtons "primary" patchUrlExample isoNow
                WriteEnv.findNetError).2.1) :=
  claim_c3_updateButton_optimistic defaultButtons "primary" patchUrlExample
    isoNow WriteEnv.findNetError bdPrimary (by decide)

/-- C9 counterexample: the claim says every name absent from the in-memory
map is rejected with no merge, no fetch and no write. But the source guard is
a truthiness test on a prototype-chain property read: for the absent name
"constructor" the read resolves to `Object.prototype.constructor` (truthy),
so the guard passes — the patch is merged over an empty record and added to
the map as a new key, and the persist GET and the cache write happen. -/
theorem claim_c9_counterexample :
    lookupB defaultButtons "constructor" = none
    ∧ (updateButton defaultButtons "constructor" patchUrlExample isoNow
          WriteEnv.findNetError).1
        = defaultButtons
            ++ [("constructor", mergeButton emptyButtonData patchUrlExample isoNow)]
    ∧ (updateButton defaultButtons "constructor" patchUrlExample isoNow
          WriteEnv.findNetError).1 ≠ defaultButtons
    ∧ UBEvent.remoteGet
        ∈ (updateButton defaultButtons "constructor" patchUrlExample isoNow
            WriteEnv.findNetError).2.1
    ∧ UBEvent.cacheWrite
          (defaultButtons
            ++ [("constructor", mergeButton emptyButtonData patchUrlExample isoNow)])
        ∈ (updateButton defaultButtons "constructor" patchUrlExample isoNow
            WriteEnv.findNetError).2.1 := by
  decide

/-- C9 (amended): for a button name that is neither an own key of the map nor
a property of `Object.prototype`, the truthiness guard fires and
`updateButton` returns false with no effect at all (map unchanged, empty
event trace). For an absent name that is an `Object.prototype` member other
than `__proto__` (e.g. "constructor", "toString"), the guard passes: the
patch is merged over an empty record, the result is appended to the map as a
new key, and the DOM sync happens first, followed by the remote GET and the
cache write. -/
theorem claim_c9_unknown_button :
    (∀ (btns : Buttons) (name : String) (p : Patch) (now : String) (env : WriteEnv),
        lookupB btns name = none → protoMember name = false →
        updateButton btns name p now env = (btns, [], false))
    ∧ (∀ (btns : Buttons) (name : String) (p : Patch) (now : String) (env : WriteEnv),
        lookupB btns name = none → protoMember name = true →
        (name == "__proto__") = false →
        (updateButton btns name p now env).1
            = btns ++ [(name, mergeButton emptyButtonData p now)]
        ∧ (∃ rest, (updateButton btns name p now env).2.1
            = UBEvent.domSync (btns ++ [(name, mergeButton emptyButtonData p now)]) :: rest)
        ∧ UBEvent.remoteGet ∈ (updateButton btns name p now env).2.1
        ∧ UBEvent.cacheWrite (btns ++ [(name, mergeButton emptyButtonData p now)])
            ∈ (updateButton btns name p now env).2.1) := by
  constructor
  · intro btns name p now env h hp
    have hpr : (name == "__proto__") = false := by
      cases hb : (name == "__proto__") with
      | false => rfl
      | true =>
          have hname : name = "__proto__" := by simpa using hb
          rw [hname] at hp
          exact absurd hp (by decide)
    simp [updateButton, h, hpr, hp]
  · intro btns name p now env h hp hpr
    simp only [updateButton, h, hpr, hp]
    cases env with
    | findNetError => exact ⟨rfl, ⟨_, rfl⟩, by simp, by simp⟩
    | findNotOk => exact ⟨rfl, ⟨_, rfl⟩, by simp, by simp⟩
    | findParseError => exact ⟨rfl, ⟨_, rfl⟩, by simp, by simp⟩
    | findEmpty c => exact ⟨rfl, ⟨_, rfl⟩, by simp, by simp⟩
    | findRow row => exact ⟨rfl, ⟨_, rfl⟩, by simp, by simp⟩

/-- C9 witness: a genuinely unknown name ("tertiary") has no effect; the
prototype name "toString" slips past the guard and is merged in. -/
theorem claim_c9_unknown_button_witness :
    updateButton defaultButtons "tertiary" patchUrlExample isoNow
        WriteEnv.findNetError = (defaultButtons, [], false)
    ∧ ((updateButton defaultButtons "toString" patchUrlExample isoNow
            WriteEnv.findNetError).1
          = defaultButtons
              ++ [("toString", mergeButton emptyButtonData patchUrlExample isoNow)]
        ∧ (∃ rest, (updateButton defaultButtons "toString" patchUrlExample isoNow
              WriteEnv.findNetError).2.1
            = UBEvent.domSync (defaultButtons
                ++ [("toString", mergeButton emptyButtonData patchUrlExample isoNow)]) :: rest)
        ∧ UBEvent.remoteGet
            ∈ (updateButton defaultButtons "toString" patchUrlExample isoNow
                WriteEnv.findNetError).2.1
        ∧ UBEvent.cacheWrite (defaultButtons
              ++ [("toString", mergeButton emptyButtonData patchUrlExample isoNow)])
            ∈ (updateButton defaultButtons "toString" patchUrlExample isoNow
                WriteEnv.findNetError).2.1) :=
  ⟨claim_c9_unknown_button.1 defaultButtons "tertiary" patchUrlExample isoNow
      WriteEnv.findNetError (by decide) (by decide),
    claim_c9_unknown_button.2 defaultButtons "toString" patchUrlExample isoNow
      WriteEnv.findNetError (by decide) (by decide) (by decide)⟩

/-! ## Claim theorems: DOM synchronizer idempotence (C4) -/

/-- C4: both DOM synchronizers are idempotent — applying the same snapshot
twice in succession (with no intervening DOM change) leaves every written
attribute (href, textContent, title) exactly as after the first application;
here the whole resulting DOM is equal. -/
theorem claim_c4_updateButtons_idempotent :
    (∀ (b : Buttons) (dom : List Elem),
        updateButtons b (updateButtons b dom) = updateButtons b dom)
    ∧ (∀ (c : SConfig) (dom : List Elem),
        sUpdateButtons c (sUpdateButtons c dom) = sUpdateButtons c dom) :=
  ⟨updateButtons_idem, sUpdateButtons_idem⟩

/-! ## Claim theorems: key invariant (C8) -/

theorem lookupB_map_keep {g : String × ButtonData → String × ButtonData}
    (hg : ∀ p, (g p).1 = p.1) (st : Buttons) (k : String) :
    (lookupB (st.map g) k).isSome = (lookupB st k).isSome := by
  induction st with
  | nil => rfl
  | cons p rest ih =>
      simp only [List.map_cons, lookupB, hg p]
      by_cases h : (p.1 == k) = true
      · rw [if_pos h, if_pos h]
        rfl
      · rw [if_neg h, if_neg h]
        exact ih

theorem hasAllKeys_map {g : String × ButtonData → String × ButtonData}
    (hg : ∀ p, (g p).1 = p.1) (st : Buttons) :
    hasAllKeys (st.map g) = hasAllKeys st := by
  simp [hasAllKeys, lookupB_map_keep hg]

theorem keysOf_map {g : String × ButtonData → String × ButtonData}
    (hg : ∀ p, (g p).1 = p.1) (st : Buttons) :
    keysOf (st.map g) = keysOf st := by
  induction st with
  | nil => rfl
  | cons p rest ih =>
      show (g p).1 :: keysOf (rest.map g) = p.1 :: keysOf rest
      rw [hg p, ih]

theorem updateUrls_fst (row : Row) :
    ∀ p : String × ButtonData,
      ((fun p : String × ButtonData =>
        match lookupRow row p.2.column with
        | some v => if v == "" then p else (p.1, { p.2 with url := v })
        | none => p) p).1 = p.1 := by
  intro p
  dsimp only
  cases lookupRow row p.2.column with
  | none => rfl
  | some v =>
      show (if v == "" then p else (p.1, { p.2 with url := v })).1 = p.1
      by_cases h : (v == "") = true
      · rw [if_pos h]
      · rw [if_neg h]

theorem updateUrlsLC_fst (row : Row) :
    ∀ p : String × ButtonData,
      ((fun p : String × ButtonData =>
        match lookupRow row p.2.column with
        | some v => (p.1, { p.2 with url := v })
        | none => p) p).1 = p.1 := by
  intro p
  dsimp only
  cases lookupRow row p.2.column with
  | none => rfl
  | some v => rfl

theorem setB_fst (k : String) (v : ButtonData) :
    ∀ p : String × ButtonData,
      ((fun p : String × ButtonData => if p.1 == k then (p.1, v) else p) p).1 = p.1 := by
  intro p
  dsimp only
  by_cases h : (p.1 == k) = true
  · rw [if_pos h]
  · rw [if_neg h]

theorem updateUrls_hasAllKeys (st : Buttons) (row : Row) :
    hasAllKeys (updateUrls st row) = hasAllKeys st :=
  hasAllKeys_map (updateUrls_fst row) st

theorem updateUrlsLC_hasAllKeys (st : Buttons) (row : Row) :
    hasAllKeys (updateUrlsLC st row) = hasAllKeys st :=
  hasAllKeys_map (updateUrlsLC_fst row) st

theorem setB_hasAllKeys (st : Buttons) (k : String) (v : ButtonData) :
    hasAllKeys (setB st k v) = hasAllKeys st :=
  hasAllKeys_map (setB_fst k v) st

theorem lookupB_append_isSome (st l : Buttons) (k : String)
    (h : (lookupB st k).isSome = true) :
    (lookupB (st ++ l) k).isSome = true := by
  induction st with
  | nil => simp [lookupB] at h
  | cons q rest ih =>
      simp only [List.cons_append, lookupB]
      simp only [lookupB] at h
      by_cases hq : (q.1 == k) = true
      · rw [if_pos hq]
        rfl
      · rw [if_neg hq]
        rw [if_neg hq] at h
        exact ih h

theorem hasAllKeys_append (st l : Buttons) (h : hasAllKeys st = true) :
    hasAllKeys (st ++ l) = true := by
  simp only [hasAllKeys, Bool.and_eq_true] at h ⊢
  exact ⟨⟨lookupB_append_isSome _ _ _ h.1.1, lookupB_append_isSome _ _ _ h.1.2⟩,
    lookupB_append_isSome _ _ _ h.2⟩

/-- C8: the in-memory button map always contains all configured logical keys:
the constructor defaults have them; a remote fetch only rewrites fields of
existing entries and never removes a key (the key list is preserved exactly);
and every load and update operation preserves the all-keys property, given
that a parseable cached snapshot — itself always written from a full map —
has all keys. -/
theorem claim_c8_keys_invariant :
    hasAllKeys defaultButtons = true
    ∧ (∀ (st : Buttons) (row : Row), keysOf (updateUrls st row) = keysOf st)
    ∧ (∀ (st : Buttons) (row : Row), keysOf (updateUrlsLC st row) = keysOf st)
    ∧ (∀ (st : Buttons) (env : LoadEnv), hasAllKeys st = true →
        cacheHasKeys env.cache = true → hasAllKeys (loadButtonData st env).1 = true)
    ∧ (∀ (st : Buttons) (env : LoadEnv), hasAllKeys st = true →
        cacheHasKeys env.cache = true → hasAllKeys (loadConfig st env).1 = true)
    ∧ (∀ (st : Buttons) (c : CacheState), hasAllKeys st = true →
        cacheHasKeys c = true → hasAllKeys (loadFromLocalStorage st c).1 = true)
    ∧ (∀ (st : Buttons) (name : String) (p : Patch) (now : String) (env : WriteEnv),
        hasAllKeys st = true → hasAllKeys (updateButton st name p now env).1 = true) := by
  have hlfls : ∀ (st : Buttons) (c : CacheState), hasAllKeys st = true →
      cacheHasKeys c = true → hasAllKeys (loadFromLocalStorage st c).1 = true := by
    intro st c h1 h2
    cases c with
    | absent => exact h1
    | malformed => exact h1
    | stored b => simpa [cacheHasKeys] using h2
  refine ⟨by decide, fun st row => keysOf_map (updateUrls_fst row) st,
    fun st row => keysOf_map (updateUrlsLC_fst row) st, ?_, ?_, hlfls, ?_⟩
  · intro st env h1 h2
    rcases env with ⟨api, sf, cache⟩
    cases api with
    | netError => exact h1
    | parseError => exact h1
    | httpError =>
        cases cache with
        | absent => exact h1
        | malformed => exact h1
        | stored b => simpa [cacheHasKeys] using h2
    | ok rows =>
        cases rows with
        | nil => exact h1
        | cons row rest =>
            show hasAllKeys (updateUrls st row) = true
            rw [updateUrls_hasAllKeys]
            exact h1
  · intro st env h1 h2
    rcases env with ⟨api, sf, cache⟩
    cases api with
    | netError => exact hlfls st cache h1 h2
    | parseError => exact hlfls st cache h1 h2
    | httpError => exact hlfls st cache h1 h2
    | ok rows =>
        cases rows with
        | nil => exact h1
        | cons row rest =>
            simp only [loadConfig]
            split
            · show hasAllKeys (updateUrlsLC st row) = true
              rw [updateUrlsLC_hasAllKeys]
              exact h1
            · show hasAllKeys (updateUrlsLC st row) = true
              rw [updateUrlsLC_hasAllKeys]
              exact h1
  · intro st name p now env h1
    cases hlk : lookupB st name with
    | none =>
        by_cases hd : (name == "__proto__") = true
        · cases env <;> simpa [updateButton, hlk, hd] using h1
        · have hd' : (name == "__proto__") = false := by simpa using hd
          by_cases hp : protoMember name = true
          · have hap : hasAllKeys
                (st ++ [(name, mergeButton emptyButtonData p now)]) = true :=
              hasAllKeys_append _ _ h1
            cases env <;> simpa [updateButton, hlk, hd', hp] using hap
          · have hp' : protoMember name = false := by simpa using hp
            simpa [updateButton, hlk, hd', hp'] using h1
    | some bd =>
        have hs : hasAllKeys (setB st name (mergeButton bd p now)) = true := by
          rw [setB_hasAllKeys]
          exact h1
        cases env <;> simpa [updateButton, hlk] using hs

/-- C8 witness: the invariant holds concretely through a cache fallback and a
failing update. -/
theorem claim_c8_keys_invariant_witness :
    hasAllKeys (loadButtonData defaultButtons
        ⟨FetchOutcome.httpError, FetchOutcome.netError, CacheState.stored cachedAlt⟩).1
      = true
    ∧ hasAllKeys (updateButton defaultButtons "primary" patchUrlExample isoNow
        WriteEnv.findNetError).1 = true :=
  ⟨claim_c8_keys_invariant.2.2.2.1 defaultButtons
      ⟨FetchOutcome.httpError, FetchOutcome.netError, CacheState.stored cachedAlt⟩
      (by decide) (by decide),
    claim_c8_keys_invariant.2.2.2.2.2.2 defaultButtons "primary" patchUrlExample
      isoNow WriteEnv.findNetError (by decide)⟩
